import Mathlib

/-!
Verification of the per-event hook runner and the streaming transcript store
(`templates/hooks/lib.ts`).  The TypeScript source is shallowly embedded:

* JSON values that flow through the runner (`JSON.parse` results, handler
  responses) are modelled by the inductive type `JVal`; `JSON.parse` itself is
  an external platform function and is therefore a parameter
  (`jsonParse : String → Option JVal`, `none` modelling a parse exception).
* The transcript log is modelled by a `FileSys` mapping a path to the file's
  lines, or to an I/O error.  `tryParseJSON<TranscriptMessage>` is modelled by
  a parameter `parseMsg : String → Option TranscriptMessage` wrapped with the
  source's empty-line check.
* `process.stdout` / `process.stderr` / `process.exit` are modelled as an
  event trace (`Event`), so ordering claims ("exit right after the response
  line") are statements about concrete traces.
* `Date.now()` is an explicit `now : Nat` argument; the module-level
  `transcriptCache` map is explicit state threaded through `getAllMessages`.
-/

namespace ClaudeHooks

/-! ## JSON values and serialization -/

/-- A JSON value, as produced by `JSON.parse` and consumed by
`JSON.stringify`.  Objects are association lists of fields. -/
inductive JVal where
  | str (s : String)
  | num (n : Int)
  | bool (b : Bool)
  | null
  | arr (elems : List JVal)
  | obj (fields : List (String × JVal))
deriving Repr

/-- Escaping used by `JSON.stringify` for the characters that occur in this
development (quote and backslash). -/
def jsonEscapeChar (c : Char) : String :=
  if c = '"' then "\\\"" else if c = '\\' then "\\\\" else String.singleton c

def jsonEscape (s : String) : String :=
  s.data.foldl (fun acc c => acc ++ jsonEscapeChar c) ""

mutual

/-- Model of `JSON.stringify`. -/
def stringify : JVal → String
  | JVal.str s => "\"" ++ jsonEscape s ++ "\""
  | JVal.num n => toString n
  | JVal.bool b => if b then "true" else "false"
  | JVal.null => "null"
  | JVal.arr xs => "[" ++ stringifyElems xs ++ "]"
  | JVal.obj fs => "\x7b" ++ stringifyFields fs ++ "\x7d"

def stringifyElems : List JVal → String
  | [] => ""
  | [x] => stringify x
  | x :: y :: rest => stringify x ++ "," ++ stringifyElems (y :: rest)

def stringifyFields : List (String × JVal) → String
  | [] => ""
  | [(k, v)] => "\"" ++ jsonEscape k ++ "\":" ++ stringify v
  | (k, v) :: p :: rest =>
      "\"" ++ jsonEscape k ++ "\":" ++ stringify v ++ "," ++ stringifyFields (p :: rest)

end

/-! ## Transcript message data model

Lean rendering of the `TranscriptSummary` / `TranscriptUserMessage` /
`TranscriptAssistantMessage` interfaces.  Fields that no transcript-store
function reads (`parentUuid`, `isSidechain`, `userType`, usage counters, …)
are omitted; the fields the code dereferences are kept with their TypeScript
optionality. -/

/-- `'tool_result' | 'text'` item tag of user-message array content. -/
inductive UContentItemType where
  | tool_result
  | text
deriving DecidableEq, Repr

/-- One element of a user message's array-form `message.content`. -/
structure UserContentItem where
  tool_use_id : Option String
  type : UContentItemType
  content : Option String
  is_error : Option Bool
deriving DecidableEq, Repr

/-- `message.content : string | Array<…>` of a user message. -/
inductive UserContent where
  | str (s : String)
  | items (xs : List UserContentItem)
deriving DecidableEq, Repr

/-- Fields of a `TranscriptUserMessage` read by the transcript store.
`message.role` is the literal `'user'` in the interface. -/
structure UserMessageData where
  sessionId : String
  version : String
  cwd : String
  gitBranch : Option String
  content : UserContent
  uuid : String
  timestamp : String
deriving DecidableEq, Repr

/-- `'text' | 'tool_use'` item tag of assistant-message content. -/
inductive AContentItemType where
  | text
  | tool_use
deriving DecidableEq, Repr

/-- One element of an assistant message's `message.content` array.  The
`input : Record<string, unknown>` of a tool use is kept abstract as an
association list of strings (its contents are only passed through). -/
structure AssistantContentItem where
  type : AContentItemType
  text : Option String
  id : Option String
  name : Option String
  input : Option (List (String × String))
deriving DecidableEq, Repr

/-- Fields of a `TranscriptAssistantMessage` read by the transcript store. -/
structure AssistantMessageData where
  sessionId : String
  version : String
  cwd : String
  gitBranch : Option String
  content : List AssistantContentItem
  timestamp : String
deriving DecidableEq, Repr

/-- `TranscriptMessage = TranscriptSummary | TranscriptUserMessage |
TranscriptAssistantMessage`. -/
inductive TranscriptMessage where
  | summary (summary : String) (leafUuid : String)
  | user (m : UserMessageData)
  | assistant (m : AssistantMessageData)
deriving DecidableEq, Repr

/-! ## File system and line parsing -/

/-- The transcript file system: a path resolves to the file's lines, or to an
I/O error (the rejection raised by `fs.createReadStream` / the reader). -/
abbrev FileSys := String → Except String (List String)

/-- Model of `tryParseJSON<TranscriptMessage>`: the `!line.trim()` guard
(the line is empty or whitespace-only) gives `null`; otherwise the external
`JSON.parse` (+ unchecked cast), abstracted as `parseMsg`, is consulted,
with `none` for a parse failure. -/
def tryParseJSON (parseMsg : String → Option TranscriptMessage) (line : String) :
    Option TranscriptMessage :=
  if line.data.all Char.isWhitespace then none else parseMsg line

/-- Model of the async generator `readTranscriptLines`: parse each line in
order, silently dropping lines that fail to parse.  A file-level I/O failure
propagates as the `Except.error` (the generator rejects). -/
def readTranscriptLines (parseMsg : String → Option TranscriptMessage)
    (fs : FileSys) (transcriptPath : String) : Except String (List TranscriptMessage) :=
  (fs transcriptPath).map (fun lines => lines.filterMap (tryParseJSON parseMsg))

/-! ## getInitialMessage -/

/-- Text extracted from array-form user content: items with
`type === 'text'` and a string `content` field, joined with newlines. -/
def initialTextOf (xs : List UserContentItem) : String :=
  String.intercalate "\n" (xs.filterMap (fun item =>
    match item.type, item.content with
    | UContentItemType.text, some c => some c
    | _, _ => none))

/-- The text `getInitialMessage` would return for one message: a user message
with string content returns that string; array content returns the joined
text items only when that join is nonempty (`if (textContent) return …`);
every other message (including a user message whose array content has no
text) makes the loop continue. -/
def userText : TranscriptMessage → Option String
  | TranscriptMessage.user m =>
    match m.content with
    | UserContent.str s => some s
    | UserContent.items xs =>
      let t := initialTextOf xs
      if t = "" then none else some t
  | _ => none

/-- The scanning loop of `getInitialMessage` over the file's lines, also
counting how many lines the reader consumed before returning. -/
def initialMessageGo (parseMsg : String → Option TranscriptMessage) :
    List String → Option String × Nat
  | [] => (none, 0)
  | l :: rest =>
    match (tryParseJSON parseMsg l).bind userText with
    | some s => (some s, 1)
    | none =>
      let r := initialMessageGo parseMsg rest
      (r.1, r.2 + 1)

/-- `getInitialMessage`: scans from the start; the surrounding try/catch turns
an I/O failure into `null`. -/
def getInitialMessage (parseMsg : String → Option TranscriptMessage)
    (fs : FileSys) (transcriptPath : String) : Option String :=
  match fs transcriptPath with
  | Except.error _ => none
  | Except.ok lines => (initialMessageGo parseMsg lines).1

/-! ## getAllMessages and the transcript cache -/

/-- One `transcriptCache` entry: the parsed messages plus the fetch time. -/
structure CacheEntry where
  data : List TranscriptMessage
  timestamp : Nat
deriving DecidableEq, Repr

/-- The module-level `transcriptCache : Map<string, CacheEntry>`, as an
association list keyed by transcript path. -/
abbrev TranscriptCache := List (String × CacheEntry)

def cacheGet (c : TranscriptCache) (path : String) : Option CacheEntry :=
  match c with
  | [] => none
  | (k, e) :: rest => if k = path then some e else cacheGet rest path

/-- `Map.set`: replace the entry in place if the key exists, else append. -/
def cacheSet (c : TranscriptCache) (path : String) (e : CacheEntry) : TranscriptCache :=
  match c with
  | [] => [(path, e)]
  | (k, e0) :: rest => if k = path then (k, e) :: rest else (k, e0) :: cacheSet rest path e

/-- `CACHE_TTL = 5 * 60 * 1000` milliseconds. -/
def CACHE_TTL : Nat := 5 * 60 * 1000

/-- Result of one `getAllMessages` call: the returned messages, the cache
state after the call, and how many file reads the call performed (0 or 1) —
the instrumentation needed to state the "no second file read" claim. -/
structure GetAllResult where
  messages : List TranscriptMessage
  cache : TranscriptCache
  reads : Nat
deriving Repr

/-- `getAllMessages(transcriptPath, useCache)`: a cache entry younger than
`CACHE_TTL` is returned without touching the file; otherwise the file is read
once, and on success the messages plus the current time replace the cache
entry.  An I/O failure is caught (messages stay empty, nothing is cached). -/
def getAllMessages (parseMsg : String → Option TranscriptMessage) (fs : FileSys)
    (cache : TranscriptCache) (now : Nat) (transcriptPath : String) (useCache : Bool) :
    GetAllResult :=
  let hit : Option CacheEntry :=
    if useCache then
      match cacheGet cache transcriptPath with
      | some e => if now - e.timestamp < CACHE_TTL then some e else none
      | none => none
    else none
  match hit with
  | some e => ⟨e.data, cache, 0⟩
  | none =>
    match fs transcriptPath with
    | Except.ok lines =>
      let msgs := lines.filterMap (tryParseJSON parseMsg)
      ⟨msgs, if useCache then cacheSet cache transcriptPath ⟨msgs, now⟩ else cache, 1⟩
    | Except.error _ => ⟨[], cache, 1⟩

/-! ## getLastNMessages -/

/-- One loop iteration of `getLastNMessages`: push the message, and shift
the oldest one out when the window exceeds `n`. -/
def windowStep (n : Nat) (acc : List TranscriptMessage) (m : TranscriptMessage) :
    List TranscriptMessage :=
  let acc2 := acc ++ [m]
  if acc2.length > n then acc2.tail else acc2

/-- The sliding window of `getLastNMessages` over the whole message list. -/
def lastNWindow (n : Nat) (msgs : List TranscriptMessage) : List TranscriptMessage :=
  msgs.foldl (windowStep n) []

/-- `getLastNMessages(transcriptPath, n)`.  There is no try/catch in the
source, so a file-level failure propagates to the caller. -/
def getLastNMessages (parseMsg : String → Option TranscriptMessage) (fs : FileSys)
    (transcriptPath : String) (n : Nat) : Except String (List TranscriptMessage) :=
  (readTranscriptLines parseMsg fs transcriptPath).map (lastNWindow n)

/-! ## searchMessages -/

structure SearchOptions where
  caseSensitive : Bool
  limit : Option Nat
deriving Repr

/-- JavaScript `String.prototype.includes`. -/
def jsIncludes (s sub : String) : Bool :=
  decide (sub.toList <:+: s.toList)

/-- JavaScript `String.prototype.toLowerCase`, modelled characterwise. -/
def jsToLower (s : String) : String :=
  String.mk (s.data.map Char.toLower)

/-- Whether one message satisfies the `found` test of `searchMessages`:
user messages are searched only when their content is a string; assistant
messages are searched in the join of their nonempty text items (each item
lowercased when the search is case-insensitive); summaries never match. -/
def msgFound (caseSensitive : Bool) (searchLower : String) : TranscriptMessage → Bool
  | TranscriptMessage.user m =>
    match m.content with
    | UserContent.str s =>
        jsIncludes (if caseSensitive then s else jsToLower s) searchLower
    | _ => false
  | TranscriptMessage.assistant m =>
      let textContent := String.join (m.content.filterMap (fun item =>
        match item.type, item.text with
        | AContentItemType.text, some t =>
            if t = "" then none else some (if caseSensitive then t else jsToLower t)
        | _, _ => none))
      jsIncludes textContent searchLower
  | _ => false

/-- `if (limit && count >= limit) break`: a `limit` of `0` is falsy in
JavaScript, so it never stops the scan. -/
def limitHit (limit : Option Nat) (count : Nat) : Bool :=
  match limit with
  | some k => if k = 0 then false else decide (count ≥ k)
  | none => false

/-- The scanning loop of `searchMessages`, returning the yielded messages and
how many messages were examined before the generator finished. -/
def searchGo (caseSensitive : Bool) (searchLower : String) (limit : Option Nat)
    (count : Nat) : List TranscriptMessage → List TranscriptMessage × Nat
  | [] => ([], 0)
  | m :: rest =>
    if msgFound caseSensitive searchLower m then
      if limitHit limit (count + 1) then ([m], 1)
      else
        let r := searchGo caseSensitive searchLower limit (count + 1) rest
        (m :: r.1, r.2 + 1)
    else
      let r := searchGo caseSensitive searchLower limit count rest
      (r.1, r.2 + 1)

/-- `searchMessages(transcriptPath, searchText, options)` with the yielded
messages collected into a list.  No try/catch: an I/O failure propagates. -/
def searchMessages (parseMsg : String → Option TranscriptMessage) (fs : FileSys)
    (transcriptPath : String) (searchText : String) (options : SearchOptions) :
    Except String (List TranscriptMessage) :=
  let searchLower := if options.caseSensitive then searchText else jsToLower searchText
  (readTranscriptLines parseMsg fs transcriptPath).map
    (fun msgs => (searchGo options.caseSensitive searchLower options.limit 0 msgs).1)

/-! ## getToolUsage -/

structure ToolUse where
  tool : String
  input : List (String × String)
  timestamp : String
deriving DecidableEq, Repr

/-- Tool invocations recorded in one message: assistant content items with
`type === 'tool_use'`, a string `name`, and a (truthy) `input`. -/
def toolUsesOf : TranscriptMessage → List ToolUse
  | TranscriptMessage.assistant m =>
      m.content.filterMap (fun item =>
        match item.type, item.name, item.input with
        | AContentItemType.tool_use, some n, some inp => some ⟨n, inp, m.timestamp⟩
        | _, _, _ => none)
  | _ => []

/-- `getToolUsage(transcriptPath)` (collecting `streamToolUsage`).  No
try/catch: an I/O failure propagates. -/
def getToolUsage (parseMsg : String → Option TranscriptMessage) (fs : FileSys)
    (transcriptPath : String) : Except String (List ToolUse) :=
  (readTranscriptLines parseMsg fs transcriptPath).map
    (fun msgs => msgs.flatMap toolUsesOf)

/-! ## getSessionMetadata -/

structure SessionMetadata where
  sessionId : Option String
  version : Option String
  cwd : Option String
  gitBranch : Option String
  firstTimestamp : Option String
  lastTimestamp : Option String
deriving DecidableEq, Repr

def emptyMetadata : SessionMetadata := ⟨none, none, none, none, none, none⟩

def isUserOrAssistant : TranscriptMessage → Bool
  | TranscriptMessage.user _ => true
  | TranscriptMessage.assistant _ => true
  | _ => false

def msgSessionId : TranscriptMessage → Option String
  | TranscriptMessage.user m => some m.sessionId
  | TranscriptMessage.assistant m => some m.sessionId
  | _ => none

def msgVersion : TranscriptMessage → Option String
  | TranscriptMessage.user m => some m.version
  | TranscriptMessage.assistant m => some m.version
  | _ => none

def msgCwd : TranscriptMessage → Option String
  | TranscriptMessage.user m => some m.cwd
  | TranscriptMessage.assistant m => some m.cwd
  | _ => none

def msgGitBranch : TranscriptMessage → Option String
  | TranscriptMessage.user m => m.gitBranch
  | TranscriptMessage.assistant m => m.gitBranch
  | _ => none

def msgTimestamp : TranscriptMessage → Option String
  | TranscriptMessage.user m => some m.timestamp
  | TranscriptMessage.assistant m => some m.timestamp
  | _ => none

/-- The metadata derived from the parsed messages: fields of the first
user-or-assistant message, plus the last such message's timestamp. -/
def metadataOf (msgs : List TranscriptMessage) : SessionMetadata :=
  let ua := msgs.filter isUserOrAssistant
  match ua.head? with
  | none => emptyMetadata
  | some first =>
      ⟨msgSessionId first, msgVersion first, msgCwd first, msgGitBranch first,
       msgTimestamp first, ua.getLast?.bind msgTimestamp⟩

/-- `getSessionMetadata(transcriptPath)`.  No try/catch: an I/O failure
propagates. -/
def getSessionMetadata (parseMsg : String → Option TranscriptMessage) (fs : FileSys)
    (transcriptPath : String) : Except String SessionMetadata :=
  (readTranscriptLines parseMsg fs transcriptPath).map metadataOf

/-! ## Hook runner

`runHook` reads the category from `process.argv[2]`, accumulates stdin
chunks, parses the buffer after each chunk, and on success dispatches through
`handleHookPayload`.  Output-channel activity and `process.exit` are modelled
as an event trace. -/

/-- One observable process action of the runner. -/
inductive Event where
  | out (line : String)
  | err (line : String)
  | exit (code : Nat)
deriving DecidableEq, Repr

/-- A registered handler: receives the tagged payload, returns a response or
throws/rejects (`Except.error` carries the error's rendering). -/
abbrev Handler := JVal → Except String JVal

/-- The `HookHandlers` registry: one optional handler per category. -/
structure HookHandlers where
  preToolUse : Option Handler
  postToolUse : Option Handler
  notification : Option Handler
  stop : Option Handler
  subagentStop : Option Handler
  userPromptSubmit : Option Handler
  preCompact : Option Handler
  sessionStart : Option Handler

/-- The registry with no handler registered. -/
def noHandlers : HookHandlers := ⟨none, none, none, none, none, none, none, none⟩

/-- The fields the JavaScript spread `{...inputData}` contributes: an
object's own fields; an array or string spreads to index-keyed fields; other
primitives contribute nothing. -/
def spreadFields : JVal → List (String × JVal)
  | JVal.obj fs => fs
  | JVal.arr xs => (xs.enum.map fun p => (toString p.1, p.2))
  | JVal.str s => (s.data.enum.map fun p => (toString p.1, JVal.str (String.singleton p.2)))
  | _ => []

/-- `const payload = {...inputData, hook_type}`: the externally supplied
category overrides any `hook_type` field the payload smuggled in.  (Field
order of the JavaScript object is not modelled; lookup semantics is.) -/
def tagPayload (inputData : JVal) (hook_type : String) : JVal :=
  JVal.obj ((spreadFields inputData).filter (fun p => p.1 != "hook_type") ++
    [("hook_type", JVal.str hook_type)])

def lookupField : List (String × JVal) → String → Option JVal
  | [], _ => none
  | (k, v) :: rest, key => if k = key then some v else lookupField rest key

/-- Property access `payload[key]` on a JSON value. -/
def jLookup (j : JVal) (key : String) : Option JVal :=
  match j with
  | JVal.obj fields => lookupField fields key
  | _ => none

/-- String-valued property access, as used by `switch (payload.hook_type)`. -/
def jStrField (j : JVal) (key : String) : Option String :=
  match jLookup j key with
  | some (JVal.str s) => some s
  | _ => none

/-- `let response: any = {}; if (handlers.x) response = await handlers.x(payload)`:
an absent handler leaves the empty-object response. -/
def runHandler (h : Option Handler) (payload : JVal) : Except String JVal :=
  match h with
  | some f => f payload
  | none => Except.ok (JVal.obj [])

/-- The handler the `switch` dispatches to, as a function of the dispatch
tag alone. -/
def selectedHandler (handlers : HookHandlers) (tag : Option String) : Option Handler :=
  match tag with
  | some "PreToolUse" => handlers.preToolUse
  | some "PostToolUse" => handlers.postToolUse
  | some "Notification" => handlers.notification
  | some "Stop" => handlers.stop
  | some "SubagentStop" => handlers.subagentStop
  | some "UserPromptSubmit" => handlers.userPromptSubmit
  | some "PreCompact" => handlers.preCompact
  | some "SessionStart" => handlers.sessionStart
  | _ => none

/-- The two `switch` cases that call `process.exit(0)` after writing the
response. -/
def isTerminalTag (tag : Option String) : Bool :=
  tag == some "Stop" || tag == some "SubagentStop"

/-- The `switch (payload.hook_type)` body of `handleHookPayload`: dispatch on
the payload's tag, await the handler (whose throw/rejection propagates to the
caller's `.catch`), write the serialized response, and for `Stop` /
`SubagentStop` exit immediately afterwards.  An unknown tag keeps the initial
empty-object response. -/
def handleTagged (handlers : HookHandlers) (payload : JVal) : Except String (List Event) :=
  match jStrField payload "hook_type" with
  | some "PreToolUse" =>
      (runHandler handlers.preToolUse payload).map (fun r => [Event.out (stringify r)])
  | some "PostToolUse" =>
      (runHandler handlers.postToolUse payload).map (fun r => [Event.out (stringify r)])
  | some "Notification" =>
      (runHandler handlers.notification payload).map (fun r => [Event.out (stringify r)])
  | some "Stop" =>
      (runHandler handlers.stop payload).map
        (fun r => [Event.out (stringify r), Event.exit 0])
  | some "SubagentStop" =>
      (runHandler handlers.subagentStop payload).map
        (fun r => [Event.out (stringify r), Event.exit 0])
  | some "UserPromptSubmit" =>
      (runHandler handlers.userPromptSubmit payload).map (fun r => [Event.out (stringify r)])
  | some "PreCompact" =>
      (runHandler handlers.preCompact payload).map (fun r => [Event.out (stringify r)])
  | some "SessionStart" =>
      (runHandler handlers.sessionStart payload).map (fun r => [Event.out (stringify r)])
  | _ => Except.ok [Event.out (stringify (JVal.obj []))]

def handleHookPayload (handlers : HookHandlers) (inputData : JVal) (hook_type : String) :
    Except String (List Event) :=
  handleTagged handlers (tagPayload inputData hook_type)

-- (doc) `handleHookPayload(inputData, hook_type, handlers)` first builds
-- `const payload = {...inputData, hook_type}` and then runs the switch.

/-- The fixed safe-default response written by the `.catch` in `runHook`:
`JSON.stringify({action: 'continue'})`. -/
def safeDefaultLine : String := stringify (JVal.obj [("action", JVal.str "continue")])

/-- The events produced by one dispatch, including the `.catch` that turns a
handler failure into a stderr diagnostic plus the safe-default response. -/
def dispatchEvents (handlers : HookHandlers) (inputData : JVal) (hook_type : String) :
    List Event :=
  match handleHookPayload handlers inputData hook_type with
  | Except.ok evs => evs
  | Except.error e => [Event.err ("Hook error: " ++ e), Event.out safeDefaultLine]

/-- State of the `runHook` stdin loop: the accumulation buffer and the event
trace so far. -/
structure RunnerState where
  buffer : String
  events : List Event
deriving DecidableEq, Repr

/-- Whether the trace contains a `process.exit` call (after which the process
is gone and no further chunk is processed). -/
def hasExited (evs : List Event) : Bool :=
  evs.any (fun e => match e with | Event.exit _ => true | _ => false)

/-- One `process.stdin.on('data')` callback invocation: append the chunk,
try `JSON.parse` on the whole buffer (`jsonParse` returning `none` models the
parse exception, which is *not* an error — the JSON is still incomplete), and
on success clear the buffer and dispatch. -/
def stdinData (jsonParse : String → Option JVal) (handlers : HookHandlers)
    (hook_type : String) (st : RunnerState) (chunk : String) : RunnerState :=
  if hasExited st.events then st
  else
    let buffer := st.buffer ++ chunk
    match jsonParse buffer with
    | none => ⟨buffer, st.events⟩
    | some inputData => ⟨"", st.events ++ dispatchEvents handlers inputData hook_type⟩

/-- `runHook` observed over a whole stdin delivery: the chunks arrive in
order, starting from an empty buffer and an empty trace. -/
def runHookChunks (jsonParse : String → Option JVal) (handlers : HookHandlers)
    (hook_type : String) (chunks : List String) : RunnerState :=
  chunks.foldl (stdinData jsonParse handlers hook_type) ⟨"", []⟩

/-- The `process.stdin.on('end')` callback: a leftover non-whitespace buffer
(`buffer.trim()` truthy) is reported on stderr and no response is emitted. -/
def stdinEnd (st : RunnerState) : RunnerState :=
  if st.buffer.data.all Char.isWhitespace then st
  else ⟨st.buffer, st.events ++ [Event.err ("Incomplete JSON in buffer: " ++ st.buffer)]⟩

/-- The stdout lines of a trace. -/
def outLines (evs : List Event) : List String :=
  evs.filterMap (fun e => match e with | Event.out s => some s | _ => none)

/-- Concatenation of the delivered chunks. -/
def strJoin : List String → String
  | [] => ""
  | s :: rest => s ++ strJoin rest

/-- The response value a dispatch serializes to stdout: the handler's result,
or the safe default when the handler failed. -/
def hookResponse (handlers : HookHandlers) (inputData : JVal) (hook_type : String) : JVal :=
  match runHandler (selectedHandler handlers (some hook_type)) (tagPayload inputData hook_type) with
  | Except.ok r => r
  | Except.error _ => JVal.obj [("action", JVal.str "continue")]

/-! ## Runner lemmas -/

theorem lookupField_filter_append (fs : List (String × JVal)) (k : String) (v : JVal) :
    lookupField (fs.filter (fun p => p.1 != k) ++ [(k, v)]) k = some v := by
  induction fs with
  | nil => simp [lookupField]
  | cons p rest ih =>
    by_cases h : p.1 = k
    · simpa [List.filter_cons, h] using ih
    · simpa [List.filter_cons, h, lookupField] using ih

/-- The dispatch tag of a tagged payload is the external category argument,
whatever fields the parsed input carried. -/
theorem jStrField_tagPayload (d : JVal) (ht : String) :
    jStrField (tagPayload d ht) "hook_type" = some ht := by
  simp [jStrField, jLookup, tagPayload, lookupField_filter_append]

/-- The `switch` of `handleHookPayload`, re-expressed through the selected
handler and the terminal-tag test. -/
theorem handleHookPayload_eq (handlers : HookHandlers) (d : JVal) (ht : String) :
    handleHookPayload handlers d ht =
      (runHandler (selectedHandler handlers (some ht)) (tagPayload d ht)).map
        (fun r => Event.out (stringify r) ::
          (if isTerminalTag (some ht) then [Event.exit 0] else [])) := by
  unfold handleHookPayload handleTagged
  rw [jStrField_tagPayload]
  by_cases h1 : ht = "PreToolUse"
  · subst h1; rfl
  by_cases h2 : ht = "PostToolUse"
  · subst h2; rfl
  by_cases h3 : ht = "Notification"
  · subst h3; rfl
  by_cases h4 : ht = "Stop"
  · subst h4; rfl
  by_cases h5 : ht = "SubagentStop"
  · subst h5; rfl
  by_cases h6 : ht = "UserPromptSubmit"
  · subst h6; rfl
  by_cases h7 : ht = "PreCompact"
  · subst h7; rfl
  by_cases h8 : ht = "SessionStart"
  · subst h8; rfl
  have hsel : selectedHandler handlers (some ht) = none := by
    unfold selectedHandler
    split <;> simp_all
  have hterm : isTerminalTag (some ht) = false := by
    simp [isTerminalTag, h4, h5]
  rw [hsel, hterm]
  split <;> simp_all [runHandler, Except.map]

/-- Every dispatch writes exactly one stdout line: the serialized handler
response, or the safe default after a handler failure. -/
theorem outLines_dispatchEvents (handlers : HookHandlers) (d : JVal) (ht : String) :
    outLines (dispatchEvents handlers d ht) = [stringify (hookResponse handlers d ht)] := by
  unfold dispatchEvents hookResponse
  rw [handleHookPayload_eq]
  cases hrun : runHandler (selectedHandler handlers (some ht)) (tagPayload d ht) with
  | ok r =>
    by_cases ht' : isTerminalTag (some ht) = true <;>
      simp [Except.map, outLines, ht', safeDefaultLine]
  | error e => simp [Except.map, outLines, safeDefaultLine]

/-! ## Claim C2 -/

/-- Claim C2: the dispatch tag of the tagged payload and the handler the
`switch` selects depend only on the externally supplied category argument —
for any two parsed stdin payloads (so in particular two payloads differing
only in a `hook_event_name` or an injected `hook_type` field) the tag is the
external category and the selected handler is the same. -/
theorem dispatch_tag_unspoofable (handlers : HookHandlers) (d1 d2 : JVal) (ht : String) :
    jStrField (tagPayload d1 ht) "hook_type" = some ht ∧
    jStrField (tagPayload d2 ht) "hook_type" = some ht ∧
    selectedHandler handlers (jStrField (tagPayload d1 ht) "hook_type") =
      selectedHandler handlers (jStrField (tagPayload d2 ht) "hook_type") := by
  refine ⟨jStrField_tagPayload d1 ht, jStrField_tagPayload d2 ht, ?_⟩
  rw [jStrField_tagPayload, jStrField_tagPayload]

/-! ## Claim C3 -/

/-- Claim C3: whenever the handler registered for the dispatched category
throws (or its promise rejects), the runner's catch writes one diagnostic
line to stderr followed by exactly the fixed safe-default response
`{"action":"continue"}` as the only stdout line; no exit or crash occurs. -/
theorem handler_failure_contained (handlers : HookHandlers) (d : JVal) (ht : String)
    (h : Handler) (e : String)
    (hsel : selectedHandler handlers (some ht) = some h)
    (hthrow : h (tagPayload d ht) = Except.error e) :
    dispatchEvents handlers d ht =
      [Event.err ("Hook error: " ++ e), Event.out "\x7b\"action\":\"continue\"\x7d"] := by
  unfold dispatchEvents
  rw [handleHookPayload_eq, hsel]
  simp only [runHandler, hthrow, Except.map]
  rfl

def throwingNotifHandlers : HookHandlers :=
  ⟨none, none, some (fun _ => Except.error "boom"), none, none, none, none, none⟩

theorem handler_failure_contained_witness :
    dispatchEvents throwingNotifHandlers (JVal.obj [("session_id", JVal.str "s1")]) "Notification" =
      [Event.err "Hook error: boom", Event.out "\x7b\"action\":\"continue\"\x7d"] :=
  handler_failure_contained throwingNotifHandlers (JVal.obj [("session_id", JVal.str "s1")])
    "Notification" (fun _ => Except.error "boom") "boom" rfl rfl

/-! ## Claim C5 -/

def throwingStopHandlers : HookHandlers :=
  ⟨none, none, none, some (fun _ => Except.error "boom"), none, none, none, none⟩

/-- Claim C5 counterexample: an invocation with terminal category `Stop`, a
syntactically valid payload and a registered Stop handler that throws writes
its single response line (the safe default) but makes no exit call — so the
claim's unconditional "calls an immediate successful exit right after the
single response line" is false on the code. -/
theorem stop_dispatch_without_exit :
    dispatchEvents throwingStopHandlers (JVal.obj [("session_id", JVal.str "s1")]) "Stop" =
      [Event.err "Hook error: boom", Event.out "\x7b\"action\":\"continue\"\x7d"] ∧
    hasExited (dispatchEvents throwingStopHandlers
      (JVal.obj [("session_id", JVal.str "s1")]) "Stop") = false :=
  ⟨rfl, rfl⟩

/-- Claim C5 (amended): for terminal category `Stop` or `SubagentStop`, when
the dispatched handler completes normally (or none is registered), the trace
is exactly the response line immediately followed by `process.exit(0)`; for
every non-terminal category no exit call is ever made. -/
theorem terminal_exit_discipline (handlers : HookHandlers) (d : JVal) (ht : String) (r : JVal) :
    ((ht = "Stop" ∨ ht = "SubagentStop") →
      runHandler (selectedHandler handlers (some ht)) (tagPayload d ht) = Except.ok r →
      dispatchEvents handlers d ht = [Event.out (stringify r), Event.exit 0]) ∧
    (ht ≠ "Stop" → ht ≠ "SubagentStop" →
      hasExited (dispatchEvents handlers d ht) = false) := by
  constructor
  · intro hterm hok
    have ht' : isTerminalTag (some ht) = true := by
      rcases hterm with h | h <;> simp [isTerminalTag, h]
    unfold dispatchEvents
    rw [handleHookPayload_eq, hok]
    simp [Except.map, ht']
  · intro h4 h5
    have ht' : isTerminalTag (some ht) = false := by
      simp [isTerminalTag, h4, h5]
    unfold dispatchEvents
    rw [handleHookPayload_eq]
    cases hrun : runHandler (selectedHandler handlers (some ht)) (tagPayload d ht) with
    | ok r2 => simp [Except.map, ht', hasExited]
    | error e => simp [Except.map, hasExited]

theorem terminal_exit_discipline_witness :
    dispatchEvents noHandlers (JVal.obj []) "Stop" = [Event.out "\x7b\x7d", Event.exit 0] ∧
    hasExited (dispatchEvents noHandlers (JVal.obj []) "Notification") = false :=
  ⟨(terminal_exit_discipline noHandlers (JVal.obj []) "Stop" (JVal.obj [])).1 (Or.inl rfl) rfl,
   (terminal_exit_discipline noHandlers (JVal.obj []) "Notification" (JVal.obj [])).2
     (by decide) (by decide)⟩

/-! ## Claim C10 -/

/-- Claim C10: if the handler registered for terminal category `Stop` or
`SubagentStop` throws or rejects, `process.exit` is never reached: the catch
path writes the diagnostic and the safe-default response
`{"action":"continue"}`, and the trace contains no exit call. -/
theorem terminal_handler_failure_no_exit (handlers : HookHandlers) (d : JVal) (ht : String)
    (h : Handler) (e : String)
    (_hterm : ht = "Stop" ∨ ht = "SubagentStop")
    (hsel : selectedHandler handlers (some ht) = some h)
    (hthrow : h (tagPayload d ht) = Except.error e) :
    dispatchEvents handlers d ht =
      [Event.err ("Hook error: " ++ e), Event.out "\x7b\"action\":\"continue\"\x7d"] ∧
    hasExited (dispatchEvents handlers d ht) = false := by
  have hd : dispatchEvents handlers d ht =
      [Event.err ("Hook error: " ++ e), Event.out "\x7b\"action\":\"continue\"\x7d"] := by
    unfold dispatchEvents
    rw [handleHookPayload_eq, hsel]
    simp only [runHandler, hthrow, Except.map]
    rfl
  exact ⟨hd, by rw [hd]; rfl⟩

theorem terminal_handler_failure_no_exit_witness :
    dispatchEvents throwingStopHandlers (JVal.obj []) "Stop" =
      [Event.err "Hook error: boom", Event.out "\x7b\"action\":\"continue\"\x7d"] ∧
    hasExited (dispatchEvents throwingStopHandlers (JVal.obj []) "Stop") = false :=
  terminal_handler_failure_no_exit throwingStopHandlers (JVal.obj []) "Stop"
    (fun _ => Except.error "boom") "boom" (Or.inl rfl) rfl rfl

/-! ## Claim C1 -/

/-- The accumulation invariant of the stdin loop: starting from buffer `acc`
with an empty trace, as long as every intermediate buffer fails to parse, the
runner keeps accumulating; the chunk that completes the JSON value clears the
buffer and appends exactly the dispatch events. -/
theorem runChunks_accum (jsonParse : String → Option JVal) (handlers : HookHandlers)
    (ht : String) (v : JVal) :
    ∀ (chunks : List String) (acc : String), chunks ≠ [] →
    (∀ k, k < chunks.length → jsonParse (acc ++ strJoin (chunks.take k)) = none) →
    jsonParse (acc ++ strJoin chunks) = some v →
    chunks.foldl (stdinData jsonParse handlers ht) ⟨acc, []⟩ =
      ⟨"", dispatchEvents handlers v ht⟩ := by
  intro chunks
  induction chunks with
  | nil => intro acc hne _ _; exact absurd rfl hne
  | cons c rest ih =>
    intro acc _ hmid hfull
    cases hrest : rest with
    | nil =>
      subst hrest
      have hv : jsonParse (acc ++ c) = some v := by
        simpa [strJoin] using hfull
      simp [stdinData, hasExited, hv]
    | cons c2 rest2 =>
      have h1 : jsonParse (acc ++ c) = none := by
        have := hmid 1 (by simp [hrest])
        simpa [strJoin] using this
      have hstep : stdinData jsonParse handlers ht ⟨acc, []⟩ c = ⟨acc ++ c, []⟩ := by
        simp [stdinData, hasExited, h1]
      rw [List.foldl_cons, hstep, ← hrest]
      apply ih (acc ++ c)
      · rw [hrest]; exact List.cons_ne_nil _ _
      · intro k hk
        have := hmid (k + 1) (by simpa using Nat.succ_lt_succ hk)
        simpa [strJoin, String.append_assoc] using this
      · simpa [strJoin, String.append_assoc] using hfull

/-- Claim C1: when the stdin chunks concatenate to one valid JSON value but
no proper prefix of the delivery parses, every intermediate parse failure is
treated as incomplete input and accumulation continues; the chunk that
completes the value clears the buffer and the trace is exactly one dispatch,
whose stdout content is a single correct response line. -/
theorem runHook_chunked_delivery (jsonParse : String → Option JVal)
    (handlers : HookHandlers) (ht : String) (v : JVal) (chunks : List String)
    (hne : chunks ≠ [])
    (hmid : ∀ k, k < chunks.length → jsonParse (strJoin (chunks.take k)) = none)
    (hfull : jsonParse (strJoin chunks) = some v) :
    runHookChunks jsonParse handlers ht chunks = ⟨"", dispatchEvents handlers v ht⟩ ∧
    outLines (dispatchEvents handlers v ht) = [stringify (hookResponse handlers v ht)] := by
  constructor
  · unfold runHookChunks
    apply runChunks_accum jsonParse handlers ht v chunks "" hne
    · intro k hk
      simpa using hmid k hk
    · simpa using hfull
  · exact outLines_dispatchEvents handlers v ht

/-- A stand-in for `JSON.parse` accepting exactly one two-chunk document. -/
def toyParse : String → Option JVal :=
  fun s => if s = "ab" then some (JVal.obj []) else none

theorem runHook_chunked_delivery_witness :
    runHookChunks toyParse noHandlers "Notification" ["a", "b"] =
      ⟨"", dispatchEvents noHandlers (JVal.obj []) "Notification"⟩ ∧
    outLines (dispatchEvents noHandlers (JVal.obj []) "Notification") =
      [stringify (hookResponse noHandlers (JVal.obj []) "Notification")] :=
  runHook_chunked_delivery toyParse noHandlers "Notification" (JVal.obj []) ["a", "b"]
    (by simp) (by intro k hk; simp at hk; interval_cases k <;> rfl) rfl

/-! ## Claim C4 -/

/-- A file system on which every read fails. -/
def errFileSys : FileSys := fun _ => Except.error "ENOENT: no such file or directory"

/-- A line parser that accepts nothing (irrelevant when the read fails). -/
def noParse : String → Option TranscriptMessage := fun _ => none

/-- Claim C4 counterexample: `getLastNMessages` has no try/catch, so an I/O
failure opening the transcript propagates to the caller as the rejection
instead of degrading to an empty result. -/
theorem getLastNMessages_propagates :
    getLastNMessages noParse errFileSys "transcript.jsonl" 5 =
      Except.error "ENOENT: no such file or directory" := rfl

/-- Claim C4 (amended): only `getInitialMessage` and `getAllMessages` catch a
file-level I/O failure and degrade it (to `null` and to the empty sequence);
`getLastNMessages`, `searchMessages`, `getToolUsage` and `getSessionMetadata`
have no try/catch and propagate the failure to the caller. -/
theorem transcript_failure_semantics (parseMsg : String → Option TranscriptMessage)
    (fs : FileSys) (transcriptPath : String) (e : String)
    (cache : TranscriptCache) (now : Nat) (n : Nat) (text : String) (options : SearchOptions)
    (hfs : fs transcriptPath = Except.error e)
    (hc : cacheGet cache transcriptPath = none) :
    getInitialMessage parseMsg fs transcriptPath = none ∧
    (getAllMessages parseMsg fs cache now transcriptPath true).messages = [] ∧
    (getAllMessages parseMsg fs cache now transcriptPath true).cache = cache ∧
    getLastNMessages parseMsg fs transcriptPath n = Except.error e ∧
    searchMessages parseMsg fs transcriptPath text options = Except.error e ∧
    getToolUsage parseMsg fs transcriptPath = Except.error e ∧
    getSessionMetadata parseMsg fs transcriptPath = Except.error e := by
  refine ⟨?_, ?_, ?_, ?_, ?_, ?_, ?_⟩ <;>
    simp [getInitialMessage, getAllMessages, getLastNMessages, searchMessages,
      getToolUsage, getSessionMetadata, readTranscriptLines, hfs, hc, Except.map]

theorem transcript_failure_semantics_witness :
    getInitialMessage noParse errFileSys "t.jsonl" = none ∧
    (getAllMessages noParse errFileSys [] 0 "t.jsonl" true).messages = [] ∧
    (getAllMessages noParse errFileSys [] 0 "t.jsonl" true).cache = [] ∧
    getLastNMessages noParse errFileSys "t.jsonl" 3 =
      Except.error "ENOENT: no such file or directory" ∧
    searchMessages noParse errFileSys "t.jsonl" "hello" ⟨false, none⟩ =
      Except.error "ENOENT: no such file or directory" ∧
    getToolUsage noParse errFileSys "t.jsonl" =
      Except.error "ENOENT: no such file or directory" ∧
    getSessionMetadata noParse errFileSys "t.jsonl" =
      Except.error "ENOENT: no such file or directory" :=
  transcript_failure_semantics noParse errFileSys "t.jsonl"
    "ENOENT: no such file or directory" [] 0 3 "hello" ⟨false, none⟩ rfl rfl

/-! ## Claim C6 -/

theorem cacheGet_cacheSet (c : TranscriptCache) (path : String) (e : CacheEntry) :
    cacheGet (cacheSet c path e) path = some e := by
  induction c with
  | nil => simp [cacheSet, cacheGet]
  | cons p rest ih =>
    by_cases h : p.1 = path
    · cases p; simp_all [cacheSet, cacheGet]
    · cases p; simp_all [cacheSet, cacheGet]

/-- Claim C6 counterexample: when the first call's file read fails, nothing
is cached, so a second `getAllMessages(path, true)` call made within the TTL
window performs another file read (reads = 1, not 0) — the claim's
unconditional "without performing a second file read" is false on the code. -/
theorem getAllMessages_second_read :
    (getAllMessages noParse errFileSys
        (getAllMessages noParse errFileSys [] 0 "t.jsonl" true).cache
        1 "t.jsonl" true).reads = 1 := rfl

/-- Claim C6 (amended): after a first cache-miss call whose file read
succeeds, a second `getAllMessages(path, true)` call within the TTL window
returns the identical result without reading the file, leaving the cache
unchanged; a call after TTL expiry re-reads the file and, when that read
succeeds, replaces the cached entry with the new sequence and the call's
current time. -/
theorem getAllMessages_cache_behavior (parseMsg : String → Option TranscriptMessage)
    (fs fs2 : FileSys) (cache : TranscriptCache) (transcriptPath : String)
    (t0 t1 : Nat) (lines lines2 : List String)
    (hc : cacheGet cache transcriptPath = none)
    (hfs : fs transcriptPath = Except.ok lines) :
    (getAllMessages parseMsg fs cache t0 transcriptPath true).messages =
      lines.filterMap (tryParseJSON parseMsg) ∧
    (getAllMessages parseMsg fs cache t0 transcriptPath true).reads = 1 ∧
    (t1 - t0 < CACHE_TTL →
      getAllMessages parseMsg fs2 (getAllMessages parseMsg fs cache t0 transcriptPath true).cache
          t1 transcriptPath true =
        ⟨(getAllMessages parseMsg fs cache t0 transcriptPath true).messages,
         (getAllMessages parseMsg fs cache t0 transcriptPath true).cache, 0⟩) ∧
    (CACHE_TTL ≤ t1 - t0 → fs2 transcriptPath = Except.ok lines2 →
      (getAllMessages parseMsg fs2 (getAllMessages parseMsg fs cache t0 transcriptPath true).cache
          t1 transcriptPath true).reads = 1 ∧
      cacheGet (getAllMessages parseMsg fs2
          (getAllMessages parseMsg fs cache t0 transcriptPath true).cache
          t1 transcriptPath true).cache transcriptPath =
        some ⟨lines2.filterMap (tryParseJSON parseMsg), t1⟩) := by
  have h1 : getAllMessages parseMsg fs cache t0 transcriptPath true =
      ⟨lines.filterMap (tryParseJSON parseMsg),
       cacheSet cache transcriptPath ⟨lines.filterMap (tryParseJSON parseMsg), t0⟩, 1⟩ := by
    simp [getAllMessages, hc, hfs]
  refine ⟨by rw [h1], by rw [h1], ?_, ?_⟩
  · intro httl
    rw [h1]
    simp [getAllMessages, cacheGet_cacheSet, httl]
  · intro hexp hfs2
    rw [h1]
    have hmiss : ¬ (t1 - t0 < CACHE_TTL) := by omega
    constructor
    · simp [getAllMessages, cacheGet_cacheSet, hmiss, hfs2]
    · simp [getAllMessages, cacheGet_cacheSet, hmiss, hfs2]

/-- A one-line transcript file for the cache witness. -/
def oneLineFS : FileSys :=
  fun p => if p = "t.jsonl" then Except.ok ["L1"] else Except.error "ENOENT"

/-- A line parser recognising the one line of `oneLineFS`. -/
def oneLineParse : String → Option TranscriptMessage :=
  fun l => if l = "L1" then
    some (TranscriptMessage.user ⟨"s1", "1.0", "/w", none, UserContent.str "hi", "u1", "ts1"⟩)
  else none

theorem getAllMessages_cache_behavior_witness :
    (getAllMessages oneLineParse oneLineFS [] 0 "t.jsonl" true).messages =
      [TranscriptMessage.user ⟨"s1", "1.0", "/w", none, UserContent.str "hi", "u1", "ts1"⟩] ∧
    (getAllMessages oneLineParse oneLineFS [] 0 "t.jsonl" true).reads = 1 ∧
    getAllMessages oneLineParse oneLineFS
        (getAllMessages oneLineParse oneLineFS [] 0 "t.jsonl" true).cache 1 "t.jsonl" true =
      ⟨(getAllMessages oneLineParse oneLineFS [] 0 "t.jsonl" true).messages,
       (getAllMessages oneLineParse oneLineFS [] 0 "t.jsonl" true).cache, 0⟩ ∧
    (getAllMessages oneLineParse oneLineFS
        (getAllMessages oneLineParse oneLineFS [] 0 "t.jsonl" true).cache
        CACHE_TTL "t.jsonl" true).reads = 1 ∧
    cacheGet (getAllMessages oneLineParse oneLineFS
        (getAllMessages oneLineParse oneLineFS [] 0 "t.jsonl" true).cache
        CACHE_TTL "t.jsonl" true).cache "t.jsonl" =
      some ⟨[TranscriptMessage.user ⟨"s1", "1.0", "/w", none, UserContent.str "hi", "u1", "ts1"⟩],
        CACHE_TTL⟩ := by
  have h := getAllMessages_cache_behavior oneLineParse oneLineFS oneLineFS [] "t.jsonl"
    0 1 ["L1"] ["L1"] rfl rfl
  have h2 := getAllMessages_cache_behavior oneLineParse oneLineFS oneLineFS [] "t.jsonl"
    0 CACHE_TTL ["L1"] ["L1"] rfl rfl
  exact ⟨h.1, h.2.1, h.2.2.1 (by decide), (h2.2.2.2 (by decide) rfl).1,
    (h2.2.2.2 (by decide) rfl).2⟩

/-! ## Claim C8 -/

/-- The sliding-window invariant: starting from any window not exceeding `n`,
the fold keeps exactly the last `n` elements of everything seen so far. -/
theorem foldl_windowStep (n : Nat) :
    ∀ (msgs acc : List TranscriptMessage), acc.length ≤ n →
    List.foldl (windowStep n) acc msgs = (acc ++ msgs).drop ((acc ++ msgs).length - n) := by
  intro msgs
  induction msgs with
  | nil =>
    intro acc hle
    simp [Nat.sub_eq_zero_of_le hle]
  | cons m rest ih =>
    intro acc hle
    rw [List.foldl_cons]
    by_cases hlt : acc.length + 1 ≤ n
    · have hstep : windowStep n acc m = acc ++ [m] := by
        simp only [windowStep]
        rw [if_neg]
        simp only [List.length_append, List.length_cons, List.length_nil]
        omega
      rw [hstep, ih (acc ++ [m]) (by simpa using hlt)]
      simp
    · have hlen : acc.length = n := by omega
      have hstep : windowStep n acc m = (acc ++ [m]).tail := by
        simp only [windowStep]
        rw [if_pos]
        simp only [List.length_append, List.length_cons, List.length_nil]
        omega
      have htail : (acc ++ [m]).tail ++ rest = ((acc ++ [m]) ++ rest).drop 1 := by
        rw [List.drop_append_of_le_length (by simp)]
        simp
      rw [hstep, ih ((acc ++ [m]).tail) (by simp [hlen]), htail, List.drop_drop]
      have harr : (acc ++ [m]) ++ rest = acc ++ (m :: rest) := by simp
      rw [harr]
      congr 1
      simp only [List.length_drop, List.length_append, List.length_cons, hlen]
      omega

/-- Claim C8: for every `n` and every readable transcript whose parseable
lines yield `m` messages, `getLastNMessages` returns exactly the final
`min n m` messages in original order — the sliding window keeps exactly the
last `n` elements. -/
theorem getLastN_final_window (parseMsg : String → Option TranscriptMessage)
    (fs : FileSys) (transcriptPath : String) (n : Nat) (lines : List String)
    (hfs : fs transcriptPath = Except.ok lines) :
    getLastNMessages parseMsg fs transcriptPath n =
      Except.ok ((lines.filterMap (tryParseJSON parseMsg)).drop
        ((lines.filterMap (tryParseJSON parseMsg)).length - n)) ∧
    ((lines.filterMap (tryParseJSON parseMsg)).drop
        ((lines.filterMap (tryParseJSON parseMsg)).length - n)).length =
      min n (lines.filterMap (tryParseJSON parseMsg)).length := by
  constructor
  · have h := foldl_windowStep n (lines.filterMap (tryParseJSON parseMsg)) [] (by simp)
    simp only [List.nil_append] at h
    simp [getLastNMessages, readTranscriptLines, hfs, Except.map, lastNWindow, h]
  · simp only [List.length_drop]
    omega

def mkUser (s : String) : TranscriptMessage :=
  TranscriptMessage.user ⟨"s1", "1.0", "/w", none, UserContent.str s, "u1", "ts1"⟩

def threeLineFS : FileSys :=
  fun p => if p = "t.jsonl" then Except.ok ["L1", "L2", "L3"] else Except.error "ENOENT"

def threeLineParse : String → Option TranscriptMessage :=
  fun l =>
    if l = "L1" then some (mkUser "a")
    else if l = "L2" then some (mkUser "b")
    else if l = "L3" then some (mkUser "c")
    else none

theorem getLastN_final_window_witness :
    getLastNMessages threeLineParse threeLineFS "t.jsonl" 2 =
      Except.ok [mkUser "b", mkUser "c"] ∧
    ([mkUser "b", mkUser "c"] : List TranscriptMessage).length = min 2 3 :=
  getLastN_final_window threeLineParse threeLineFS "t.jsonl" 2 ["L1", "L2", "L3"] rfl

/-! ## Claim C9 -/

/-- Modelled from the spec: the "textual content" of a message whose role is
user — its string content, or the joined text items of array content
(possibly empty).  Used only to compare the code against the claim's words. -/
def specUserText : TranscriptMessage → Option String
  | TranscriptMessage.user m =>
    some (match m.content with
      | UserContent.str s => s
      | UserContent.items xs => initialTextOf xs)
  | _ => none

/-- Modelled from the spec: "scans from the start and returns the textual
content of the first message whose role is user, stopping the scan the
instant that message is found", paired with the number of consumed lines. -/
def specInitialScan (parseMsg : String → Option TranscriptMessage) :
    List String → Option String × Nat
  | [] => (none, 0)
  | l :: rest =>
    match (tryParseJSON parseMsg l).bind specUserText with
    | some s => (some s, 1)
    | none =>
      let r := specInitialScan parseMsg rest
      (r.1, r.2 + 1)

def toolResultUser : TranscriptMessage :=
  TranscriptMessage.user ⟨"s1", "1.0", "/w", none,
    UserContent.items [⟨some "tu1", UContentItemType.tool_result, some "ok", some false⟩],
    "u1", "ts1"⟩

def twoLineParse : String → Option TranscriptMessage :=
  fun l =>
    if l = "A" then some toolResultUser
    else if l = "B" then some (mkUser "hello")
    else none

/-- Claim C9 counterexample: on a log whose first line is a user-role message
with array content holding only a `tool_result` item, the scan does not stop
at that first user message: the code consumes a second line and returns the
second user message's text, while the claim's reading stops after one line
with that first message's (empty) textual content. -/
theorem initialMessage_skips_first_user :
    initialMessageGo twoLineParse ["A", "B"] = (some "hello", 2) ∧
    specInitialScan twoLineParse ["A", "B"] = (some "", 1) := ⟨rfl, rfl⟩

/-- The line index of the first message `getInitialMessage` accepts (string
content, or array content with nonempty joined text). -/
def firstTextIdx (parseMsg : String → Option TranscriptMessage) : List String → Option Nat
  | [] => none
  | l :: rest =>
    if ((tryParseJSON parseMsg l).bind userText).isSome then some 0
    else (firstTextIdx parseMsg rest).map (· + 1)

/-- Claim C9 (amended): `getInitialMessage`'s scan returns the textual
content of the first user-role message that yields text — string content, or
array content whose joined text items are nonempty; user messages whose
array content yields no text are skipped.  The scan stops on that line:
exactly `i + 1` lines are consumed when the first such message is on line
`i`, and the whole file is consumed (returning null) only when no message
yields text. -/
theorem initialMessage_first_text (parseMsg : String → Option TranscriptMessage)
    (lines : List String) :
    (initialMessageGo parseMsg lines).1 =
      lines.findSome? (fun l => (tryParseJSON parseMsg l).bind userText) ∧
    (initialMessageGo parseMsg lines).2 =
      (match firstTextIdx parseMsg lines with
       | some i => i + 1
       | none => lines.length) := by
  induction lines with
  | nil => exact ⟨rfl, rfl⟩
  | cons l rest ih =>
    constructor
    · cases h : (tryParseJSON parseMsg l).bind userText with
      | some s => simp [initialMessageGo, h, List.findSome?_cons]
      | none => simpa [initialMessageGo, h, List.findSome?_cons] using ih.1
    · cases h : (tryParseJSON parseMsg l).bind userText with
      | some s => simp [initialMessageGo, h, firstTextIdx]
      | none =>
        have h2 := ih.2
        simp only [initialMessageGo, h, firstTextIdx, Option.isSome_none, if_neg]
        cases hidx : firstTextIdx parseMsg rest <;> simp_all

/-! ## Claim C7 -/

/-- The content a case-insensitive search compares against: the lowercased
string content of a user message, or the join of the lowercased nonempty
text items of an assistant message; summaries have none. -/
def loweredSearchText : TranscriptMessage → Option String
  | TranscriptMessage.user m =>
    match m.content with
    | UserContent.str s => some (jsToLower s)
    | _ => none
  | TranscriptMessage.assistant m =>
      some (String.join (m.content.filterMap (fun item =>
        match item.type, item.text with
        | AContentItemType.text, some t => if t = "" then none else some (jsToLower t)
        | _, _ => none)))
  | _ => none

theorem msgFound_lowered (sl : String) (m : TranscriptMessage) :
    msgFound false sl m =
      (match loweredSearchText m with
       | some c => jsIncludes c sl
       | none => false) := by
  cases m with
  | summary s l => rfl
  | user u =>
    cases u with
    | mk sid ver cwd gb content uuid ts => cases content <;> rfl
  | assistant a => rfl

/-- An unlimited scan yields exactly the matching messages. -/
theorem searchGo_no_limit (cs : Bool) (sl : String) :
    ∀ (msgs : List TranscriptMessage) (count : Nat),
    (searchGo cs sl none count msgs).1 = msgs.filter (msgFound cs sl) := by
  intro msgs
  induction msgs with
  | nil => intro count; rfl
  | cons m rest ih =>
    intro count
    by_cases h : msgFound cs sl m = true
    · simp [searchGo, h, limitHit, List.filter_cons, ih]
    · simp [searchGo, h, limitHit, List.filter_cons, ih]

/-- With a nonzero limit, the scan yields the first `k - count` matches. -/
theorem searchGo_limited (cs : Bool) (sl : String) (k : Nat) (hk : k ≠ 0) :
    ∀ (msgs : List TranscriptMessage) (count : Nat), count < k →
    (searchGo cs sl (some k) count msgs).1 =
      (msgs.filter (msgFound cs sl)).take (k - count) := by
  intro msgs
  induction msgs with
  | nil => intro count _; simp [searchGo]
  | cons m rest ih =>
    intro count hc
    by_cases h : msgFound cs sl m = true
    · by_cases hhit : k ≤ count + 1
      · have h1 : k - count = 1 := by omega
        simp [searchGo, h, limitHit, hk, hhit, List.filter_cons, h1]
      · have h2 : count + 1 < k := by omega
        have h1 : k - count = (k - (count + 1)) + 1 := by omega
        simp [searchGo, h, limitHit, hk, hhit, List.filter_cons, ih (count + 1) h2, h1]
    · simp [searchGo, h, List.filter_cons, ih count hc]

/-- Once the limit is reached inside `msgs`, later messages are neither
examined nor yielded. -/
theorem searchGo_halts (cs : Bool) (sl : String) (k : Nat) (hk : k ≠ 0) :
    ∀ (msgs rest : List TranscriptMessage) (count : Nat), count < k →
    k - count ≤ (msgs.filter (msgFound cs sl)).length →
    searchGo cs sl (some k) count (msgs ++ rest) = searchGo cs sl (some k) count msgs := by
  intro msgs
  induction msgs with
  | nil =>
    intro rest count hc hlen
    exfalso
    simp [List.filter_nil] at hlen
    omega
  | cons m tl ih =>
    intro rest count hc hlen
    by_cases h : msgFound cs sl m = true
    · by_cases hhit : k ≤ count + 1
      · simp [searchGo, h, limitHit, hk, hhit]
      · have h2 : count + 1 < k := by omega
        have hlen2 : k - (count + 1) ≤ (tl.filter (msgFound cs sl)).length := by
          simp [List.filter_cons, h] at hlen
          omega
        simp [searchGo, h, limitHit, hk, hhit, ih rest (count + 1) h2 hlen2]
    · have hlen2 : k - count ≤ (tl.filter (msgFound cs sl)).length := by
        simpa [List.filter_cons, h] using hlen
      simp [searchGo, h, ih rest count hc hlen2]

def errorUser : TranscriptMessage := mkUser "An Error occurred"

def errorLineFS : FileSys :=
  fun p => if p = "t.jsonl" then Except.ok ["E1"] else Except.error "ENOENT"

def errorLineParse : String → Option TranscriptMessage :=
  fun l => if l = "E1" then some errorUser else none

/-- Claim C7 counterexample: with the explicitly given limit `k = 0`,
`limit && count >= limit` is falsy, so the scan never halts and one message
is yielded — more than the claimed "at most k". -/
theorem search_limit_zero_ignored :
    searchMessages errorLineParse errorLineFS "t.jsonl" "ERROR" ⟨false, some 0⟩ =
      Except.ok [errorUser] := rfl

/-- Claim C7 (amended): case-insensitive search depends only on the
lowercased query (two queries with equal lowerings yield identical results);
a message matches exactly when its lowercased searchable content contains
the lowercased query, so content casing is irrelevant as well; and for every
given limit `k ≥ 1` the scan yields the first `k` matches, at most `k`
messages, and halts after the `k`-th match (messages after it are neither
examined nor yielded). -/
theorem search_case_insensitive_and_limit (parseMsg : String → Option TranscriptMessage)
    (fs : FileSys) (transcriptPath : String) (s1 s2 text sl : String)
    (msgs rest : List TranscriptMessage) (m m2 : TranscriptMessage) (k : Nat)
    (hcase : jsToLower s1 = jsToLower s2) (hk : 1 ≤ k) :
    searchMessages parseMsg fs transcriptPath s1 ⟨false, none⟩ =
      searchMessages parseMsg fs transcriptPath s2 ⟨false, none⟩ ∧
    msgFound false sl m =
      (match loweredSearchText m with
       | some c => jsIncludes c sl
       | none => false) ∧
    (loweredSearchText m = loweredSearchText m2 →
      msgFound false sl m = msgFound false sl m2) ∧
    (searchGo false (jsToLower text) (some k) 0 msgs).1 =
      (msgs.filter (msgFound false (jsToLower text))).take k ∧
    (searchGo false (jsToLower text) (some k) 0 msgs).1.length ≤ k ∧
    (k ≤ (msgs.filter (msgFound false (jsToLower text))).length →
      searchGo false (jsToLower text) (some k) 0 (msgs ++ rest) =
        searchGo false (jsToLower text) (some k) 0 msgs) := by
  have hk0 : k ≠ 0 := by omega
  refine ⟨?_, msgFound_lowered sl m, ?_, ?_, ?_, ?_⟩
  · simp [searchMessages, hcase]
  · intro h
    rw [msgFound_lowered sl m, msgFound_lowered sl m2, h]
  · simpa using searchGo_limited false (jsToLower text) k hk0 msgs 0 (by omega)
  · have h4 := searchGo_limited false (jsToLower text) k hk0 msgs 0 (by omega)
    rw [h4]
    simp
  · intro hlen
    exact searchGo_halts false (jsToLower text) k hk0 msgs rest 0 (by omega)
      (by simpa using hlen)

theorem search_case_insensitive_and_limit_witness :
    searchMessages errorLineParse errorLineFS "t.jsonl" "ERROR" ⟨false, none⟩ =
      searchMessages errorLineParse errorLineFS "t.jsonl" "error" ⟨false, none⟩ ∧
    msgFound false "error" errorUser =
      (match loweredSearchText errorUser with
       | some c => jsIncludes c "error"
       | none => false) ∧
    (loweredSearchText errorUser = loweredSearchText (mkUser "an ERROR occurred") →
      msgFound false "error" errorUser = msgFound false "error" (mkUser "an ERROR occurred")) ∧
    (searchGo false (jsToLower "error") (some 1) 0 [errorUser, mkUser "ok", mkUser "more errors"]).1 =
      (([errorUser, mkUser "ok", mkUser "more errors"] : List TranscriptMessage).filter
        (msgFound false (jsToLower "error"))).take 1 ∧
    (searchGo false (jsToLower "error") (some 1) 0
      [errorUser, mkUser "ok", mkUser "more errors"]).1.length ≤ 1 ∧
    (1 ≤ (([errorUser, mkUser "ok", mkUser "more errors"] : List TranscriptMessage).filter
        (msgFound false (jsToLower "error"))).length →
      searchGo false (jsToLower "error") (some 1) 0
          ([errorUser, mkUser "ok", mkUser "more errors"] ++ [mkUser "late error"]) =
        searchGo false (jsToLower "error") (some 1) 0 [errorUser, mkUser "ok", mkUser "more errors"]) :=
  search_case_insensitive_and_limit errorLineParse errorLineFS "t.jsonl" "ERROR" "error"
    "error" "error" [errorUser, mkUser "ok", mkUser "more errors"] [mkUser "late error"]
    errorUser (mkUser "an ERROR occurred") 1 rfl (by omega)

end ClaudeHooks
